import Mathlib

/-!
Shallow embedding of `src/analyzer.py` from android-ndk-size-analyzer,
together with proofs settling the specification claims about it.

The analyzer walks the sections of an ELF shared library, accumulates
symbol/string/constant byte totals, sorts the non-zero-size symbols by size
(descending, stable) and keeps the top N.  Terminal colouring, progress bars
and syntax highlighting are presentation glue and are not modelled; the
functions below embed the data-level behaviour of the Python source.
-/

/-- Embeds the `Architecture` enum of `src/analyzer.py` (lines 16-21). -/
inductive Architecture where
  | ARM_32
  | ARM_64
  | X86
  | X86_64
  | UNKNOWN
deriving DecidableEq, Repr

/-- Result of running `demangle`: either a list of names, or the uncaught
`AssertionError` raised by the `assert` on line 38 of `src/analyzer.py`. -/
inductive DemangleResult where
  | ok (names : List String)
  | assertionError
deriving DecidableEq, Repr

/-- Embeds `demangle` (src/analyzer.py lines 24-41).  The external `c++filt`
subprocess is modelled by `toolOutput`: `none` when starting it raises
`OSError` (tool absent, caught on line 40), `some lines` for the captured
stdout split on `"\n"` (line 34).  On a length mismatch the `assert` on
line 38 raises `AssertionError`, which the `except OSError` clause does not
catch; otherwise the trailing empty entry is dropped (`demangled[:-1]`). -/
def demangle (names : List String) (toolOutput : Option (List String)) :
    DemangleResult :=
  match toolOutput with
  | none => .ok names
  | some demangled =>
      if demangled.length = names.length + 1 then
        .ok demangled.dropLast
      else
        .assertionError

/-- Round half to even, the rounding used by Python float formatting. -/
def roundHalfEven (q : ℚ) : ℤ :=
  let f := ⌊q⌋
  let r := q - (f : ℚ)
  if r < 1/2 then f
  else if 1/2 < r then f + 1
  else if f % 2 = 0 then f else f + 1

/-- Python `"%.1f" % q`: render with exactly one decimal digit. -/
def fmtOneDecimal (q : ℚ) : String :=
  let n := roundHalfEven (q * 10)
  let body := toString (n.natAbs / 10) ++ "." ++ toString (n.natAbs % 10)
  if n < 0 ∨ (q < 0 ∧ n = 0) then "-" ++ body else body

/-- Python `"%3.1f" % q`: one decimal digit, space-padded to width ≥ 3. -/
def fmtWidth3OneDecimal (q : ℚ) : String :=
  let s := fmtOneDecimal q
  if s.length < 3 then String.mk (List.replicate (3 - s.length) ' ') ++ s else s

/-- The loop of `sizeof_fmt` (src/analyzer.py lines 48-52): successive
division by 1024 until the magnitude drops below 1024, then format with the
current unit; after exhausting the list, format with unit `Yi`. -/
def sizeof_fmt_go : ℚ → String → List String → String
  | num, suffix, [] => fmtOneDecimal num ++ "Yi" ++ suffix
  | num, suffix, unit :: rest =>
      if |num| < 1024 then fmtWidth3OneDecimal num ++ unit ++ suffix
      else sizeof_fmt_go (num / 1024) suffix rest

/-- Embeds `sizeof_fmt` with an explicit suffix argument (the Python default
is `'B'`, see `sizeof_fmt`).  Python computes with IEEE doubles; the inputs
of interest (integers repeatedly divided by the power of two 1024) stay
exactly representable, so rational arithmetic is a faithful model. -/
def sizeof_fmtWith (num : ℚ) (suffix : String) : String :=
  sizeof_fmt_go num suffix ["", "Ki", "Mi", "Gi", "Ti", "Pi", "Ei", "Zi"]

/-- Embeds `sizeof_fmt` (src/analyzer.py lines 44-52) at the default
suffix `'B'`. -/
def sizeof_fmt (num : ℚ) : String :=
  sizeof_fmtWith num "B"

/-- Embeds `AndroidLibrary._machine_description` (src/analyzer.py lines
70-88), taking the two header fields the Python reads:
`e_ident["EI_CLASS"]` and `e_machine`, both decoded by pyelftools to
strings such as `"ELFCLASS64"` and `"EM_ARM"`. -/
def _machine_description (ei_class : String) (e_machine : String) :
    Architecture :=
  let is_64_bit := ei_class = "ELFCLASS64"
  if is_64_bit then
    if e_machine = "EM_ARM" then .ARM_64
    else if e_machine = "EM_386" then .X86_64
    else .UNKNOWN
  else
    if e_machine = "EM_ARM" then .ARM_32
    else if e_machine = "EM_386" then .X86
    else .UNKNOWN

/-- C1 (counterexample): with one input name and subprocess output of three
lines (a 1:1 correspondence failure: 3 ≠ 1 + 1), `demangle` does not return
the raw names; it raises `AssertionError`, which aborts the run. -/
theorem demangle_mismatch_not_fallback :
    (["x", "y", "z"] : List String).length ≠ (["a"] : List String).length + 1 ∧
    demangle ["a"] (some ["x", "y", "z"]) = DemangleResult.assertionError ∧
    demangle ["a"] (some ["x", "y", "z"]) ≠ DemangleResult.ok ["a"] := by
  refine ⟨by decide, rfl, by decide⟩

/-- C1 (amended): if the demangling facility is unavailable (`OSError`),
`demangle` returns the raw names unchanged; but if the facility runs and its
output line count does not match the input (≠ names + trailing empty line),
the `assert` raises and the operation fails rather than falling back. -/
theorem demangle_oserror_fallback_and_mismatch_assert
    (names out : List String) (h : out.length ≠ names.length + 1) :
    demangle names none = DemangleResult.ok names ∧
    demangle names (some out) = DemangleResult.assertionError := by
  refine ⟨rfl, ?_⟩
  simp [demangle, h]

/-- Witness for C1 (amended) at names `["a"]`, output `["x", "y", "z"]`. -/
theorem demangle_fallback_assert_witness :
    demangle ["a"] none = DemangleResult.ok ["a"] ∧
    demangle ["a"] (some ["x", "y", "z"]) = DemangleResult.assertionError :=
  demangle_oserror_fallback_and_mismatch_assert ["a"] ["x", "y", "z"] (by decide)

/-- C9: `sizeof_fmt` uses 1024-based binary-prefix scaling with one decimal
place: 1536 bytes format as `"1.5KiB"` and 0 bytes as `"0.0B"`. -/
theorem sizeof_fmt_values :
    sizeof_fmt 1536 = "1.5KiB" ∧ sizeof_fmt 0 = "0.0B" := by
  have h15 : roundHalfEven 15 = 15 := by norm_num [roundHalfEven]
  have h0 : roundHalfEven 0 = 0 := by norm_num [roundHalfEven]
  constructor
  · rw [sizeof_fmt, sizeof_fmtWith, sizeof_fmt_go, if_neg (by norm_num),
      show (1536 : ℚ) / 1024 = 3/2 by norm_num, sizeof_fmt_go,
      if_pos (by rw [show |(3/2 : ℚ)| = 3/2 from abs_of_nonneg (by norm_num)]; norm_num),
      fmtWidth3OneDecimal, fmtOneDecimal, show (3/2 : ℚ) * 10 = 15 by norm_num, h15]
    norm_num
    decide
  · rw [sizeof_fmt, sizeof_fmtWith, sizeof_fmt_go, if_pos (by norm_num),
      fmtWidth3OneDecimal, fmtOneDecimal, show (0 : ℚ) * 10 = 0 by norm_num, h0]
    norm_num
    decide

/-- C7: the architecture classifier is total (it is a Lean function, hence
cannot fail) and, for either admissible bit class (pyelftools rejects files
whose `EI_CLASS` is neither 32- nor 64-bit before this code runs), maps
64-bit ARM to `ARM_64`, 64-bit x86 (`EM_386`, the machine value the code
treats as x86-family, cf. C10) to `X86_64`, 32-bit ARM to `ARM_32`, 32-bit
x86 to `X86`, and every other machine value to `UNKNOWN`. -/
theorem machine_description_cases (ei_class e_machine : String)
    (h : ei_class = "ELFCLASS32" ∨ ei_class = "ELFCLASS64") :
    (ei_class = "ELFCLASS64" → e_machine = "EM_ARM" →
      _machine_description ei_class e_machine = Architecture.ARM_64) ∧
    (ei_class = "ELFCLASS64" → e_machine = "EM_386" →
      _machine_description ei_class e_machine = Architecture.X86_64) ∧
    (ei_class = "ELFCLASS32" → e_machine = "EM_ARM" →
      _machine_description ei_class e_machine = Architecture.ARM_32) ∧
    (ei_class = "ELFCLASS32" → e_machine = "EM_386" →
      _machine_description ei_class e_machine = Architecture.X86) ∧
    (e_machine ≠ "EM_ARM" → e_machine ≠ "EM_386" →
      _machine_description ei_class e_machine = Architecture.UNKNOWN) := by
  rcases h with h | h <;> subst h <;>
    refine ⟨?_, ?_, ?_, ?_, ?_⟩ <;> intro h1 h2 <;>
    first
    | exact absurd h1 (by decide)
    | simp [_machine_description, h1, h2]

/-- Witness for C7 at a 64-bit ARM header. -/
theorem machine_description_cases_witness :
    _machine_description "ELFCLASS64" "EM_ARM" = Architecture.ARM_64 :=
  (machine_description_cases "ELFCLASS64" "EM_ARM" (Or.inr rfl)).1 rfl rfl

/-- C10: in the 64-bit case only the literal machine value `"EM_386"` is
treated as x86-family; any other non-ARM machine value — including the
standard 64-bit x86 value `"EM_X86_64"` — classifies as `UNKNOWN`. -/
theorem machine_description_64bit_only_em386 (e_machine : String)
    (h1 : e_machine ≠ "EM_ARM") (h2 : e_machine ≠ "EM_386") :
    _machine_description "ELFCLASS64" e_machine = Architecture.UNKNOWN ∧
    _machine_description "ELFCLASS64" "EM_X86_64" = Architecture.UNKNOWN := by
  refine ⟨?_, by decide⟩
  simp [_machine_description, h1, h2]

/-- Witness for C10 at the machine value `"EM_X86_64"`. -/
theorem machine_description_64bit_only_em386_witness :
    _machine_description "ELFCLASS64" "EM_X86_64" = Architecture.UNKNOWN ∧
    _machine_description "ELFCLASS64" "EM_X86_64" = Architecture.UNKNOWN :=
  machine_description_64bit_only_em386 "EM_X86_64" (by decide) (by decide)

/-- One entry of an ELF symbol table, with the two fields the analyzer
reads: `symbol.name` and `symbol.entry.st_size`. -/
structure ELFSymbol where
  name : String
  st_size : Nat
deriving DecidableEq, Repr

/-- The pyelftools section classification `_parse_file` dispatches on:
`SymbolTableSection` (carrying its symbol entries), `StringTableSection`,
or any other section class. -/
inductive SectionKind where
  | symbolTable (symbols : List ELFSymbol)
  | stringTable
  | other
deriving DecidableEq, Repr

/-- An ELF section as the analyzer sees it: its name, its declared header
size `sh_size`, and its pyelftools class. -/
structure ELFSection where
  name : String
  sh_size : Nat
  kind : SectionKind
deriving DecidableEq, Repr

/-- The `AndroidLibrary` state (src/analyzer.py lines 55-63). -/
structure AndroidLibrary where
  architecture : Architecture
  total_size : Nat
  total_strings : Nat
  total_constants : Nat
  top_symbols : List (String × Nat)
deriving DecidableEq, Repr

/-- The class-level defaults of `AndroidLibrary` (lines 56-63). -/
def initLibrary : AndroidLibrary :=
  { architecture := Architecture.UNKNOWN, total_size := 0, total_strings := 0,
    total_constants := 0, top_symbols := [] }

/-- Embeds `AndroidLibrary._process_symbol` (lines 90-96): adds `st_size` to
the running total and, when the size is positive, appends `(name, st_size)`
to the local `symbols` list. -/
def _process_symbol (lib : AndroidLibrary) (symbols : List (String × Nat))
    (symbol : ELFSymbol) : AndroidLibrary × List (String × Nat) :=
  let lib2 := { lib with total_size := lib.total_size + symbol.st_size }
  if symbol.st_size > 0 then (lib2, symbols ++ [(symbol.name, symbol.st_size)])
  else (lib2, symbols)

/-- One iteration of the section loop of `_parse_file` (lines 145-157):
symbol tables feed every entry to `_process_symbol`; string tables add their
`sh_size` to `total_strings` unless named `.strtab`; any other section adds
its `sh_size` to `total_constants` exactly when named `.rodata`. -/
def processSection (acc : AndroidLibrary × List (String × Nat))
    (sect : ELFSection) : AndroidLibrary × List (String × Nat) :=
  match sect.kind with
  | .symbolTable syms => syms.foldl (fun a y => _process_symbol a.1 a.2 y) acc
  | .stringTable =>
      if sect.name = ".strtab" then acc
      else ({ acc.1 with total_strings := acc.1.total_strings + sect.sh_size },
            acc.2)
  | .other =>
      if sect.name = ".rodata" then
        ({ acc.1 with total_constants := acc.1.total_constants + sect.sh_size },
         acc.2)
      else acc

/-- Embeds the comparison of `symbols.sort(key=lambda value: value[1],
reverse=True)` (line 159), a stable sort run descending on the size
component: `sizeDescLE a b` holds when `a` may come before `b`, that is,
when the size of `a` is at least the size of `b`. -/
def sizeDescLE (a b : String × Nat) : Bool := decide (b.2 ≤ a.2)

/-- The stable descending-by-size sort of line 159. -/
def sortSymbols (symbols : List (String × Nat)) : List (String × Nat) :=
  symbols.mergeSort sizeDescLE

/-- Embeds `AndroidLibrary._parse_file` (lines 133-160): classify the
architecture from the header fields, fold the section loop over the sections
in file order, then sort the collected symbols by size descending (stable)
and keep the first `symbol_count` as `top_symbols`. -/
def _parse_file (ei_class e_machine : String) (sections : List ELFSection)
    (symbol_count : Nat) : AndroidLibrary :=
  let lib0 := { initLibrary with
    architecture := _machine_description ei_class e_machine }
  let acc := sections.foldl processSection (lib0, [])
  { acc.1 with top_symbols := (sortSymbols acc.2).take symbol_count }

/-- Specification-side sum: `st_size` over every entry of a symbol-table
section, zero for any other section. -/
def sectionSymbolSizeSum (sect : ELFSection) : Nat :=
  match sect.kind with
  | .symbolTable syms => (syms.map ELFSymbol.st_size).sum
  | _ => 0

/-- Specification-side sum of `st_size` over every symbol-table entry in
every symbol-table section, zero-size entries included. -/
def totalSymbolSizeSpec (sections : List ELFSection) : Nat :=
  (sections.map sectionSymbolSizeSum).sum

/-- Contribution of one section to `total_strings`: a string-table section
contributes its `sh_size` unless it is named exactly `.strtab`, in which
case it contributes zero; other sections contribute nothing. -/
def stringContribution (sect : ELFSection) : Nat :=
  match sect.kind with
  | .stringTable => if sect.name = ".strtab" then 0 else sect.sh_size
  | _ => 0

def totalStringSizeSpec (sections : List ELFSection) : Nat :=
  (sections.map stringContribution).sum

/-- Contribution of one section to `total_constants`: a section that is
neither a symbol table nor a string table contributes its `sh_size` exactly
when it is named `.rodata`. -/
def constantContribution (sect : ELFSection) : Nat :=
  match sect.kind with
  | .other => if sect.name = ".rodata" then sect.sh_size else 0
  | _ => 0

def totalConstantSizeSpec (sections : List ELFSection) : Nat :=
  (sections.map constantContribution).sum

/-- Claim-side reading of C6, following the words of the claim alone: the sum of
`sh_size` over every section named exactly `.rodata`, of whatever kind. -/
def rodataNamedTotal (sections : List ELFSection) : Nat :=
  ((sections.filter (fun sect => decide (sect.name = ".rodata"))).map
    ELFSection.sh_size).sum

/-- The `(name, st_size)` pairs a symbol-table section contributes to the
local `symbols` list: entries with positive size, in encounter order. -/
def positivePairs (syms : List ELFSymbol) : List (String × Nat) :=
  (syms.filter (fun y => decide (0 < y.st_size))).map
    (fun y => (y.name, y.st_size))

def sectionPairs (sect : ELFSection) : List (String × Nat) :=
  match sect.kind with
  | .symbolTable syms => positivePairs syms
  | _ => []

/-- All retained non-zero-size symbols of the file, in encounter order. -/
def collectedPairs : List ELFSection → List (String × Nat)
  | [] => []
  | sect :: rest => sectionPairs sect ++ collectedPairs rest

theorem process_symbol_foldl (syms : List ELFSymbol) :
    ∀ (lib : AndroidLibrary) (acc : List (String × Nat)),
      syms.foldl (fun a y => _process_symbol a.1 a.2 y) (lib, acc) =
        ({ lib with
            total_size := lib.total_size + (syms.map ELFSymbol.st_size).sum },
          acc ++ positivePairs syms) := by
  induction syms with
  | nil => intro lib acc; simp [positivePairs]
  | cons y ys ih =>
      intro lib acc
      rw [List.foldl_cons]
      by_cases h : 0 < y.st_size
      · rw [show _process_symbol lib acc y =
            ({ lib with total_size := lib.total_size + y.st_size },
              acc ++ [(y.name, y.st_size)]) by simp [_process_symbol, h]]
        rw [ih]
        simp [positivePairs, List.filter_cons, h, Nat.add_assoc]
      · rw [show _process_symbol lib acc y =
            ({ lib with total_size := lib.total_size + y.st_size }, acc) by
              simp [_process_symbol, h]]
        rw [ih]
        simp [positivePairs, List.filter_cons, h, Nat.add_assoc]

theorem processSection_eq (lib : AndroidLibrary) (acc : List (String × Nat))
    (sect : ELFSection) :
    processSection (lib, acc) sect =
      ({ lib with
          total_size := lib.total_size + sectionSymbolSizeSum sect,
          total_strings := lib.total_strings + stringContribution sect,
          total_constants := lib.total_constants + constantContribution sect },
        acc ++ sectionPairs sect) := by
  obtain ⟨name, sh_size, kind⟩ := sect
  cases kind with
  | symbolTable syms =>
      simp [processSection, process_symbol_foldl, sectionSymbolSizeSum,
        stringContribution, constantContribution, sectionPairs]
  | stringTable =>
      by_cases h : name = ".strtab" <;>
        simp [processSection, h, sectionSymbolSizeSum, stringContribution,
          constantContribution, sectionPairs]
  | other =>
      by_cases h : name = ".rodata" <;>
        simp [processSection, h, sectionSymbolSizeSum, stringContribution,
          constantContribution, sectionPairs]

theorem foldl_processSection (sections : List ELFSection) :
    ∀ (lib : AndroidLibrary) (acc : List (String × Nat)),
      sections.foldl processSection (lib, acc) =
        ({ lib with
            total_size := lib.total_size + totalSymbolSizeSpec sections,
            total_strings := lib.total_strings + totalStringSizeSpec sections,
            total_constants :=
              lib.total_constants + totalConstantSizeSpec sections },
          acc ++ collectedPairs sections) := by
  induction sections with
  | nil =>
      intro lib acc
      simp [totalSymbolSizeSpec, totalStringSizeSpec, totalConstantSizeSpec,
        collectedPairs]
  | cons sect rest ih =>
      intro lib acc
      rw [List.foldl_cons, processSection_eq, ih]
      simp [totalSymbolSizeSpec, totalStringSizeSpec, totalConstantSizeSpec,
        collectedPairs, Nat.add_assoc]

theorem parse_file_eq (ei_class e_machine : String)
    (sections : List ELFSection) (n : Nat) :
    _parse_file ei_class e_machine sections n =
      { architecture := _machine_description ei_class e_machine,
        total_size := totalSymbolSizeSpec sections,
        total_strings := totalStringSizeSpec sections,
        total_constants := totalConstantSizeSpec sections,
        top_symbols := (sortSymbols (collectedPairs sections)).take n } := by
  simp [_parse_file, foldl_processSection, initLibrary]

/-- C2: after the analysis pass, the accumulated `total_size` equals the sum
of `st_size` over every symbol-table entry of every symbol-table section,
zero-size entries included. -/
theorem total_size_eq_sum_st_size (ei_class e_machine : String)
    (sections : List ELFSection) (n : Nat) :
    (_parse_file ei_class e_machine sections n).total_size =
      totalSymbolSizeSpec sections := by
  rw [parse_file_eq]

/-- C5: a string-table section named exactly `.strtab` contributes zero to
`total_strings`, and every other string-table section contributes its full
declared `sh_size` (and only string-table sections contribute). -/
theorem total_strings_excludes_strtab (ei_class e_machine : String)
    (sections : List ELFSection) (n : Nat) :
    (_parse_file ei_class e_machine sections n).total_strings =
      totalStringSizeSpec sections := by
  rw [parse_file_eq]

/-- C6 (counterexample): a string-table section named `.rodata` is captured
by the string-table branch of the `elif` chain, so `total_constants` stays 0
even though a section named exactly `.rodata` with `sh_size = 10` exists;
the sum over all sections named `.rodata` demanded by the claim gives 10. -/
theorem total_constants_rodata_named_counterexample :
    (_parse_file "ELFCLASS64" "EM_ARM"
        [{ name := ".rodata", sh_size := 10,
           kind := SectionKind.stringTable }] 200).total_constants = 0 ∧
    rodataNamedTotal
        [{ name := ".rodata", sh_size := 10,
           kind := SectionKind.stringTable }] = 10 ∧
    (_parse_file "ELFCLASS64" "EM_ARM"
        [{ name := ".rodata", sh_size := 10,
           kind := SectionKind.stringTable }] 200).total_constants ≠
      rodataNamedTotal
        [{ name := ".rodata", sh_size := 10,
           kind := SectionKind.stringTable }] := by
  refine ⟨?_, by decide, ?_⟩ <;>
    simp [parse_file_eq, totalConstantSizeSpec, constantContribution,
      rodataNamedTotal]

/-- C6 (amended): `total_constants` equals the sum of `sh_size` over the
sections that are neither symbol-table nor string-table sections and are
named exactly `.rodata` — 0 with no such section, the full sum with several
same-named ones (no dedup); no other section contributes. -/
theorem total_constants_eq_rodata_other_sections (ei_class e_machine : String)
    (sections : List ELFSection) (n : Nat) :
    (_parse_file ei_class e_machine sections n).total_constants =
      totalConstantSizeSpec sections := by
  rw [parse_file_eq]

theorem sizeDescLE_trans (a b c : String × Nat) :
    sizeDescLE a b → sizeDescLE b c → sizeDescLE a c := by
  simp [sizeDescLE]
  omega

theorem sizeDescLE_total (a b : String × Nat) :
    sizeDescLE a b || sizeDescLE b a := by
  simp [sizeDescLE]
  omega

/-- Stability of the line-159 sort, stated through filters: restricting the
sorted list to the entries of any fixed size gives exactly the same list,
in the same order, as restricting the input. -/
theorem sortSymbols_filter_stable (symbols : List (String × Nat)) (k : Nat) :
    (sortSymbols symbols).filter (fun x => decide (x.2 = k)) =
      symbols.filter (fun x => decide (x.2 = k)) := by
  have hpw : (symbols.filter (fun x => decide (x.2 = k))).Pairwise
      (fun a b => sizeDescLE a b = true) := by
    apply List.pairwise_of_forall_mem_list
    intro a ha b hb
    have ha2 := (List.mem_filter.mp ha).2
    have hb2 := (List.mem_filter.mp hb).2
    simp only [decide_eq_true_eq] at ha2 hb2
    simp [sizeDescLE, ha2, hb2]
  have h1 : List.Sublist (symbols.filter (fun x => decide (x.2 = k)))
      (sortSymbols symbols) :=
    List.sublist_mergeSort sizeDescLE_trans sizeDescLE_total hpw
      (List.filter_sublist symbols)
  have h2 := h1.filter (fun x => decide (x.2 = k))
  rw [List.filter_filter] at h2
  simp only [Bool.and_self] at h2
  have hperm : List.Perm
      ((sortSymbols symbols).filter (fun x => decide (x.2 = k)))
      (symbols.filter (fun x => decide (x.2 = k))) :=
    (List.mergeSort_perm symbols sizeDescLE).filter _
  exact (h2.eq_of_length hperm.length_eq.symm).symm

/-- C3: the top-N list is a subsequence (in fact the length-N prefix) of the
collected non-zero-size symbols sorted non-increasingly by size; the sorted
list is a permutation of the collection, is non-increasing by size (so the
top-N list is too), and the sort is stable: among entries of equal size the
original encounter order is preserved. -/
theorem top_symbols_sorted_stable (ei_class e_machine : String)
    (sections : List ELFSection) (n : Nat) :
    List.Sublist (_parse_file ei_class e_machine sections n).top_symbols
        (sortSymbols (collectedPairs sections)) ∧
    ((_parse_file ei_class e_machine sections n).top_symbols).Pairwise
        (fun a b => b.2 ≤ a.2) ∧
    (sortSymbols (collectedPairs sections)).Pairwise (fun a b => b.2 ≤ a.2) ∧
    List.Perm (sortSymbols (collectedPairs sections))
        (collectedPairs sections) ∧
    ∀ k, (sortSymbols (collectedPairs sections)).filter
          (fun x => decide (x.2 = k)) =
        (collectedPairs sections).filter (fun x => decide (x.2 = k)) := by
  have htop : (_parse_file ei_class e_machine sections n).top_symbols =
      (sortSymbols (collectedPairs sections)).take n := by
    rw [parse_file_eq]
  have hsorted : (sortSymbols (collectedPairs sections)).Pairwise
      (fun a b => b.2 ≤ a.2) := by
    have h := List.sorted_mergeSort sizeDescLE_trans sizeDescLE_total
      (collectedPairs sections)
    exact h.imp (by intro a b hab; simpa [sizeDescLE] using hab)
  refine ⟨?_, ?_, hsorted, List.mergeSort_perm _ _, fun k => ?_⟩
  · rw [htop]; exact List.take_sublist n _
  · rw [htop]
    exact List.Pairwise.sublist (List.take_sublist n _) hsorted
  · exact sortSymbols_filter_stable (collectedPairs sections) k

/-- Specification-side count of symbol-table entries with positive size. -/
def countPositiveSymbols (sections : List ELFSection) : Nat :=
  (sections.map (fun sect =>
    match sect.kind with
    | .symbolTable syms =>
        (syms.filter (fun y => decide (0 < y.st_size))).length
    | _ => 0)).sum

theorem collectedPairs_length (sections : List ELFSection) :
    (collectedPairs sections).length = countPositiveSymbols sections := by
  induction sections with
  | nil => simp [collectedPairs, countPositiveSymbols]
  | cons sect rest ih =>
      obtain ⟨name, sh_size, kind⟩ := sect
      cases kind <;>
        simp [collectedPairs, countPositiveSymbols, sectionPairs,
          positivePairs, List.sum_cons] <;>
        simpa [countPositiveSymbols] using ih

/-- C4: the top-N list has length `min N (count of non-zero-size symbols)`;
in particular, when at most N non-zero-size symbols exist, the top-N list
is all of them (a permutation of the whole collection). -/
theorem top_symbols_length_min (ei_class e_machine : String)
    (sections : List ELFSection) (n : Nat) :
    ((_parse_file ei_class e_machine sections n).top_symbols).length =
        min n (countPositiveSymbols sections) ∧
    (countPositiveSymbols sections ≤ n →
      List.Perm (_parse_file ei_class e_machine sections n).top_symbols
        (collectedPairs sections)) := by
  have htop : (_parse_file ei_class e_machine sections n).top_symbols =
      (sortSymbols (collectedPairs sections)).take n := by
    rw [parse_file_eq]
  have hlen : (sortSymbols (collectedPairs sections)).length =
      countPositiveSymbols sections := by
    rw [sortSymbols, List.length_mergeSort, collectedPairs_length]
  constructor
  · rw [htop, List.length_take, hlen]
  · intro h
    rw [htop, List.take_of_length_le (by rw [hlen]; exact h)]
    exact List.mergeSort_perm _ _

/-- The demo file of spec §8 scenario 7: one symbol table holding three
symbols of sizes 100, 0 and 250. -/
def demoSections : List ELFSection :=
  [{ name := ".symtab", sh_size := 24,
     kind := SectionKind.symbolTable
       [{ name := "a", st_size := 100 }, { name := "b", st_size := 0 },
        { name := "c", st_size := 250 }] }]

/-- Witness for C4 on `demoSections` with N = 5 (2 non-zero-size symbols). -/
theorem top_symbols_length_min_witness :
    ((_parse_file "ELFCLASS64" "EM_ARM" demoSections 5).top_symbols).length =
        min 5 (countPositiveSymbols demoSections) ∧
    List.Perm (_parse_file "ELFCLASS64" "EM_ARM" demoSections 5).top_symbols
      (collectedPairs demoSections) :=
  ⟨(top_symbols_length_min "ELFCLASS64" "EM_ARM" demoSections 5).1,
   (top_symbols_length_min "ELFCLASS64" "EM_ARM" demoSections 5).2 (by decide)⟩

/-- Possible outcomes of `print_symbol_sizes`: a list of printed lines, the
`AssertionError` escaping from `demangle`, or the `IndexError` that
`self.top_symbols[0]` would raise on an empty list. -/
inductive PrintOutcome where
  | ok (lines : List String)
  | assertError
  | indexError
deriving DecidableEq, Repr

/-- One printed line of `print_symbol_sizes` (lines 108-114), with the
terminal colouring and syntax highlighting (presentation glue, out of
scope) omitted: the size left-justified to the width of the top size. -/
def fmtSymbolLine (max_digits : Nat) (size : Nat) (name : String) : String :=
  let sizeStr := toString size
  "** " ++ sizeStr ++ String.mk (List.replicate (max_digits - sizeStr.length) ' ')
    ++ " : " ++ name

/-- Embeds `AndroidLibrary.print_symbol_sizes` (lines 98-114).  The guard on
line 103 returns before anything else runs when the top list is empty;
otherwise `demangle` runs (line 106), then the display width is computed
from `self.top_symbols[0][1]` (line 107, an `IndexError` if the list were
empty there), then one line is printed per demangled symbol. -/
def print_symbol_sizes (top_symbols : List (String × Nat))
    (toolOutput : Option (List String)) : PrintOutcome :=
  if top_symbols.length = 0 then .ok []
  else
    match demangle (top_symbols.map Prod.fst) toolOutput with
    | .assertionError => .assertError
    | .ok demangledNames =>
        match top_symbols.head? with
        | none => .indexError
        | some first =>
            let max_digits := (toString first.2).length
            .ok (List.zipWith
              (fun name size => fmtSymbolLine max_digits size name)
              demangledNames (top_symbols.map Prod.snd))

/-- C8: on an empty top-symbol list `print_symbol_sizes` returns an empty
result (whatever the demangler would do), and on no input whatsoever does
the first-element width computation raise `IndexError`: the guard makes the
index access unreachable on an empty list. -/
theorem print_symbol_sizes_empty_safe :
    (∀ toolOutput, print_symbol_sizes [] toolOutput = PrintOutcome.ok []) ∧
    (∀ top_symbols toolOutput,
      print_symbol_sizes top_symbols toolOutput ≠ PrintOutcome.indexError) := by
  constructor
  · intro t; rfl
  · intro top t
    cases top with
    | nil => simp [print_symbol_sizes]
    | cons a l =>
        unfold print_symbol_sizes
        rw [if_neg (by simp)]
        cases hd : demangle (List.map Prod.fst (a :: l)) t <;> simp

/-- Witness for C8 at an empty list and at a one-element list. -/
theorem print_symbol_sizes_empty_safe_witness :
    print_symbol_sizes [] none = PrintOutcome.ok [] ∧
    print_symbol_sizes [("a", 1)] none ≠ PrintOutcome.indexError :=
  ⟨print_symbol_sizes_empty_safe.1 none,
   print_symbol_sizes_empty_safe.2 [("a", 1)] none⟩
